import Mathlib

set_option maxHeartbeats 1000000

/-- Python exception kinds that the option-model constructors can raise.
TypeError models arithmetic on a missing (None) argument, ValueError the
explicitly raised configuration error and math domain errors, and
ZeroDivisionError a scalar division by zero. -/
inductive PyErr where
  | typeError
  | valueError
  | zeroDivisionError
deriving DecidableEq

/-- State of a constructed Binomialmodell instance (binomialmodell.py):
the attributes set by the constructor and the two setup methods. -/
structure BinModel where
  S0 : ℚ
  K : ℚ
  K2 : ℚ
  r : ℚ
  T : ℚ
  N : ℕ
  div : ℚ
  sigma : Option ℚ
  is_put : Bool
  is_am : Bool
  exponent : ℕ
  payoff : ℚ
  dt : ℚ
  df : ℚ
  u : ℚ
  d : ℚ
  qu : ℚ
  qd : ℚ
deriving DecidableEq

/-- State of a constructed Trinomialmodell instance (trinomialmodell.py). -/
structure TriModel where
  S0 : ℚ
  K : ℚ
  K2 : ℚ
  r : ℚ
  T : ℚ
  N : ℤ
  div : ℚ
  sigma : Option ℚ
  is_put : Bool
  is_am : Bool
  exponent : ℕ
  dt : ℚ
  df : ℚ
  u : ℚ
  d : ℚ
  m : ℚ
  pu : ℚ
  pd : ℚ
  pm : ℚ
deriving DecidableEq

/-- True exactly when the computation raised. -/
def isErr {α : Type} (e : Except PyErr α) : Bool :=
  match e with
  | .error _ => true
  | .ok _ => false

/-- Binomialmodell.__init__ together with setup_parameters_with_sigma and
setup_parameters_without_sigma. The arguments mexp and msqrt stand for
math.exp and math.sqrt on real inputs (the theorems below hold for every
choice, hence in particular for the actual functions); each Python raise
point is an explicit error in the order Python evaluates it:
math.sqrt of a negative number raises ValueError, 1 + None raises
TypeError, and a division by zero raises ZeroDivisionError.
The step count is stored as max(1, N). -/
def binomialInit (mexp msqrt : ℚ → ℚ) (S0 K T r : ℚ) (N : ℤ) (sigma : Option ℚ)
    (div : ℚ) (is_put : Bool) (K2 : Option ℚ) (exponent : ℕ)
    (pu pd : Option ℚ) (is_am : Bool) (payoff : ℚ) : Except PyErr BinModel :=
  let Nf : ℕ := (max 1 N).toNat
  let dt : ℚ := T / (Nf : ℚ)
  let df : ℚ := mexp (-((r - div) * dt))
  match sigma with
  | some s =>
    if dt < 0 then .error .valueError
    else
      let u : ℚ := mexp (s * msqrt dt)
      if u = 0 then .error .zeroDivisionError
      else
        let d : ℚ := 1 / u
        if u - d = 0 then .error .zeroDivisionError
        else
          let qu : ℚ := (mexp ((r - div) * dt) - d) / (u - d)
          .ok { S0 := S0, K := K, K2 := K2.getD K, r := r, T := T, N := Nf,
                div := div, sigma := some s, is_put := is_put, is_am := is_am,
                exponent := exponent, payoff := payoff, dt := dt, df := df,
                u := u, d := d, qu := qu, qd := 1 - qu }
  | none =>
    match pu, pd with
    | some puv, some pdv =>
      let u : ℚ := 1 + puv
      let d : ℚ := 1 - pdv
      if u - d = 0 then .error .zeroDivisionError
      else
        let qu : ℚ := (mexp ((r - div) * dt) - d) / (u - d)
        .ok { S0 := S0, K := K, K2 := K2.getD K, r := r, T := T, N := Nf,
              div := div, sigma := none, is_put := is_put, is_am := is_am,
              exponent := exponent, payoff := payoff, dt := dt, df := df,
              u := u, d := d, qu := qu, qd := 1 - qu }
    | none, _ => .error .typeError
    | some _, none => .error .typeError

/-- Trinomialmodell.__init__ together with setup_parameters. dt = T/N is
computed before the calibration branch, so N = 0 raises ZeroDivisionError
first; the volatility branch takes math.sqrt(2*dt), which raises ValueError
when 2*dt is negative; when sigma is absent and any of u, d, m, pu, pd, pm
is absent the constructor raises ValueError; when all six are present they
are stored wholesale with no recomputation and no check. -/
def trinomialInit (mexp msqrt : ℚ → ℚ) (S0 K T r : ℚ) (N : ℤ) (sigma : Option ℚ)
    (div : ℚ) (is_put : Bool) (K2 : Option ℚ) (pu pd pm u d m : Option ℚ)
    (is_am : Bool) (exponent : ℕ) : Except PyErr TriModel :=
  if N = 0 then .error .zeroDivisionError
  else
    let dt : ℚ := T / (N : ℚ)
    let df : ℚ := mexp (-(r * dt))
    match sigma with
    | some s =>
      if 2 * dt < 0 then .error .valueError
      else
        let uv : ℚ := mexp (s * msqrt (2 * dt))
        if uv = 0 then .error .zeroDivisionError
        else
          let dv : ℚ := 1 / uv
          let ep : ℚ := mexp (s * msqrt (dt / 2))
          let em : ℚ := mexp (-(s * msqrt (dt / 2)))
          let e1 : ℚ := mexp ((r - div) * dt / 2)
          if ep - em = 0 then .error .zeroDivisionError
          else
            let puv : ℚ := ((e1 - em) / (ep - em)) ^ 2
            let pdv : ℚ := ((ep - e1) / (ep - em)) ^ 2
            .ok { S0 := S0, K := K, K2 := K2.getD K, r := r, T := T, N := N,
                  div := div, sigma := some s, is_put := is_put, is_am := is_am,
                  exponent := exponent, dt := dt, df := df,
                  u := uv, d := dv, m := 1,
                  pu := puv, pd := pdv, pm := 1 - puv - pdv }
    | none =>
      match u, d, m, pu, pd, pm with
      | some uv, some dv, some mv, some puv, some pdv, some pmv =>
        .ok { S0 := S0, K := K, K2 := K2.getD K, r := r, T := T, N := N,
              div := div, sigma := none, is_put := is_put, is_am := is_am,
              exponent := exponent, dt := dt, df := df,
              u := uv, d := dv, m := mv, pu := puv, pd := pdv, pm := pmv }
      | _, _, _, _, _, _ => .error .valueError

inductive OptionType where
  | european
  | american
  | digital
  | power
  | strangle
deriving DecidableEq

/-- Binomial stock_price_tree entry at (level i, down-move count j):
S0 * u^(i-j) * d^j, from Binomialmodell.init_full_tree. -/
def binStock (p : BinModel) (i j : ℕ) : ℚ := p.S0 * p.u ^ (i - j) * p.d ^ j

/-- Binomialmodell.calculate_payoffs at terminal node j: each numpy
elementwise operation (np.maximum, np.where) becomes its pointwise form. -/
def binPayoff (p : BinModel) (ty : OptionType) (j : ℕ) : ℚ :=
  let S : ℚ := binStock p p.N j
  match ty with
  | .european | .american =>
    if p.is_put then max 0 (p.K - S) else max 0 (S - p.K)
  | .digital =>
    if p.is_put then (if S ≤ p.K then p.payoff else 0)
    else (if p.K < S then p.payoff else 0)
  | .power =>
    if p.is_put then (if S < p.K then (p.K - S) ^ p.exponent else 0)
    else (if p.K < S then (S - p.K) ^ p.exponent else 0)
  | .strangle =>
    (if p.K < S then S - p.K else 0) + (if S < p.K2 then p.K2 - S else 0)

/-- Backward induction of Binomialmodell.init_full_tree: option value at the
node with k remaining steps (tree level p.N - k) and down-move count j.
When is_am is set, the code takes the maximum of the discounted continuation
value and check_early_exercise applied at level i+1: for a call the maximum
of the child value V(i+1, j) and stock(i+1, j) - K, for a put the maximum of
V(i+1, j+1) and K - stock(i+1, j+1). -/
def binVal (p : BinModel) (pay : ℕ → ℚ) : ℕ → ℕ → ℚ
  | 0, j => pay j
  | k + 1, j =>
    let cont : ℚ := (p.qu * binVal p pay k j + p.qd * binVal p pay k (j + 1)) * p.df
    if p.is_am then
      let ex : ℚ :=
        if p.is_put then max (binVal p pay k (j + 1)) (p.K - binStock p (p.N - k) (j + 1))
        else max (binVal p pay k j) (binStock p (p.N - k) j - p.K)
      max cont ex
    else cont

/-- Binomialmodell.price_option: root value option_price_tree[0, 0]. -/
def binPrice (p : BinModel) (ty : OptionType) : ℚ :=
  binVal p (binPayoff p ty) p.N 0

/-- Binomial delta_tree entry at (i, j), i < N, from init_full_tree:
the division is performed with no guard; none models the non-finite float
(nan or inf) that numpy produces when the stock denominator is zero. -/
def binDelta (p : BinModel) (pay : ℕ → ℚ) (i j : ℕ) : Option ℚ :=
  let vu : ℚ := binVal p pay (p.N - i - 1) j
  let vd : ℚ := binVal p pay (p.N - i - 1) (j + 1)
  let su : ℚ := binStock p (i + 1) j
  let sd : ℚ := binStock p (i + 1) (j + 1)
  if su - sd = 0 then none else some ((vu - vd) / (su - sd))

/-- The fields of a Trinomialmodell instance that init_full_tree reads
(with the step count as a natural number). -/
structure TriTreeParams where
  S0 : ℚ
  K : ℚ
  K2 : ℚ
  u : ℚ
  d : ℚ
  m : ℚ
  pu : ℚ
  pm : ℚ
  pd : ℚ
  df : ℚ
  N : ℕ
  is_put : Bool
  exponent : ℕ
deriving DecidableEq

/-- Trinomial stock_price_tree from Trinomialmodell.init_full_tree: the
center column (offset N) copies the previous center entry, columns above
the center multiply the entry one lower by u, columns below multiply the
entry one higher by d; entries outside the reachable band stay 0. The m
multiplier is never used, exactly as in the source. -/
def triStock (q : TriTreeParams) : ℕ → ℕ → ℚ
  | 0, j => if j = q.N then q.S0 else 0
  | i + 1, j =>
    if q.N < j then triStock q i (j - 1) * q.u
    else if j < q.N then triStock q i (j + 1) * q.d
    else triStock q i j

/-- Trinomialmodell.calculate_payoffs at terminal node j. The digital case
pays the literal 1 (the trinomial constructor has no payoff amount) and is
in the money iff S < K for a put (strict) and K < S for a call. -/
def triPayoff (q : TriTreeParams) (ty : OptionType) (j : ℕ) : ℚ :=
  let S : ℚ := triStock q q.N j
  match ty with
  | .european | .american =>
    if q.is_put then max (q.K - S) 0 else max (S - q.K) 0
  | .power =>
    if q.is_put then (if S < q.K then (q.K - S) ^ q.exponent else 0)
    else (if q.K < S then (S - q.K) ^ q.exponent else 0)
  | .digital =>
    if q.is_put then (if S < q.K then 1 else 0)
    else (if q.K < S then 1 else 0)
  | .strangle =>
    (if q.K < S then S - q.K else 0) + (if S < q.K2 then q.K2 - S else 0)

/-- Backward induction of Trinomialmodell.init_full_tree: value at the node
with k remaining steps and column j; no early-exercise branch exists. -/
def triVal (q : TriTreeParams) (pay : ℕ → ℚ) : ℕ → ℕ → ℚ
  | 0, j => pay j
  | k + 1, j =>
    (q.pu * triVal q pay k (j + 1) + q.pm * triVal q pay k j
      + q.pd * triVal q pay k (j - 1)) * q.df

/-- Trinomial delta_tree entry at (i, j) from init_full_tree: guarded by
stock_up != stock_down, otherwise 0. -/
def triDelta (q : TriTreeParams) (pay : ℕ → ℚ) (i j : ℕ) : ℚ :=
  let vu : ℚ := triVal q pay (q.N - i - 1) (j + 1)
  let vd : ℚ := triVal q pay (q.N - i - 1) (j - 1)
  let su : ℚ := triStock q (i + 1) (j + 1)
  let sd : ℚ := triStock q (i + 1) (j - 1)
  if su ≠ sd then (vu - vd) / (su - sd) else 0

/-- Digit k of format(i, '0{N}o'): the Python code formats the path index in
octal (format code o), zero-padded to width N. For i < 3^N ≤ 8^N this string
consists exactly of the N octal digits of i. -/
def octDigit (i k : ℕ) : ℕ := i / 8 ^ k % 8

/-- Move counts extracted by calculate_end_state_probabilities from the
octal string of path index i: occurrences of the characters 0, 1 and 2. -/
def pathMoves (N i : ℕ) : ℕ × ℕ × ℕ :=
  let ds : List ℕ := (List.range N).map (octDigit i)
  (ds.count 0, ds.count 1, ds.count 2)

/-- Dictionary-key insertion in first-appearance order. -/
def insertState (l : List (ℕ × ℕ × ℕ)) (s : ℕ × ℕ × ℕ) : List (ℕ × ℕ × ℕ) :=
  if s ∈ l then l else l ++ [s]

/-- Key list of end_state_paths: the distinct move-count triples produced by
tallying format(i, '0{N}o') over all 0 ≤ i < 3^N. -/
def triEndStates (N : ℕ) : List (ℕ × ℕ × ℕ) :=
  (List.range (3 ^ N)).foldl (fun acc i => insertState acc (pathMoves N i)) []

/-- The probability that calculate_end_state_probabilities assigns to a
move-count triple: pu^up * pm^mid * pd^down * N! / (up! * mid! * down!)
(the tallied path count is never used in the value). -/
def multinomProb (pu pm pd : ℚ) (N : ℕ) (s : ℕ × ℕ × ℕ) : ℚ :=
  pu ^ s.1 * pm ^ s.2.1 * pd ^ s.2.2 *
    ((Nat.factorial N : ℚ) /
      ((Nat.factorial s.1 : ℚ) * (Nat.factorial s.2.1 : ℚ) * (Nat.factorial s.2.2 : ℚ)))

/-- The mapping returned by Trinomialmodell.calculate_end_state_probabilities,
as an association list in dictionary insertion order. -/
def triEndStateProbs (N : ℕ) (pu pm pd : ℚ) : List ((ℕ × ℕ × ℕ) × ℚ) :=
  (triEndStates N).map (fun s => (s, multinomProb pu pm pd N s))

/-- Direct multinomial end-state mapping, following the specification words:
every triple (up, mid, down) of non-negative counts with up + mid + down = N,
each mapped to the multinomial probability. Used as the reference side of the
refinement comparison. -/
def triStatesDirect (N : ℕ) : List (ℕ × ℕ × ℕ) :=
  (List.range (N + 1)).flatMap
    (fun a => (List.range (N + 1 - a)).map (fun b => (a, b, N - a - b)))

def triEndStateProbsDirect (N : ℕ) (pu pm pd : ℚ) : List ((ℕ × ℕ × ℕ) × ℚ) :=
  (triStatesDirect N).map (fun s => (s, multinomProb pu pm pd N s))

/-- Lookup in an end-state association list. -/
def lookupState (l : List ((ℕ × ℕ × ℕ) × ℚ)) (s : ℕ × ℕ × ℕ) : Option ℚ :=
  (l.find? (fun x => x.1 == s)).map Prod.snd

/-- Sum of all probabilities of an end-state association list. -/
def probsSum (l : List ((ℕ × ℕ × ℕ) × ℚ)) : ℚ :=
  (l.map Prod.snd).sum

/-- A BinModel state with the fields that init_full_tree reads set directly
(the remaining attributes are fixed at representative values). -/
def mkBinP (S0 K u d qu qd df : ℚ) (N : ℕ) (is_put is_am : Bool) : BinModel :=
  { S0 := S0, K := K, K2 := K, r := 1 / 20, T := 1, N := N, div := 0,
    sigma := none, is_put := is_put, is_am := is_am, exponent := 2,
    payoff := 1, dt := 1 / (N : ℚ), df := df, u := u, d := d,
    qu := qu, qd := qd }

/-- The binomial model obtained from the volatility path with the stand-in
functions mexp = const 2 and msqrt = const 3 at S0 = K = 100, T = 1, r = 0,
N = 1, sigma = 1: u = 2, d = 1/2, qu = (2 - 1/2)/(3/2) = 1, qd = 0. -/
def c5BinModelW : BinModel :=
  { S0 := 100, K := 100, K2 := 100, r := 0, T := 1, N := 1, div := 0,
    sigma := some 1, is_put := false, is_am := false, exponent := 2,
    payoff := 1, dt := 1, df := 2, u := 2, d := 1 / 2, qu := 1, qd := 0 }

/-- The trinomial model obtained from the volatility path with the stand-in
functions mexp x = 2 + x and msqrt = const 1 at S0 = K = 100, T = 1, r = 0,
N = 1, sigma = 1: pu = pd = 1/4 and pm = 1 - pu - pd = 1/2. -/
def c5TriModelW : TriModel :=
  { S0 := 100, K := 100, K2 := 100, r := 0, T := 1, N := 1, div := 0,
    sigma := some 1, is_put := false, is_am := false, exponent := 2,
    dt := 1, df := 2, u := 3, d := 1 / 3, m := 1,
    pu := 1 / 4, pd := 1 / 4, pm := 1 / 2 }

/-- The trinomial model obtained from the direct-parameter path with
pu = pd = pm = 1/2 and u = d = m = 1 (stored unchecked by the source). -/
def c5TriModelCx : TriModel :=
  { S0 := 100, K := 100, K2 := 100, r := 1 / 20, T := 1, N := 1, div := 0,
    sigma := none, is_put := false, is_am := false, exponent := 2,
    dt := 1, df := -(1 / 20), u := 1, d := 1, m := 1,
    pu := 1 / 2, pd := 1 / 2, pm := 1 / 2 }

/-- Trinomial put state with S0 = K = 100, N = 1: the middle terminal node
has S equal to K. -/
def c3TriPut : TriTreeParams :=
  { S0 := 100, K := 100, K2 := 100, u := 2, d := 1 / 2, m := 1, pu := 1 / 3,
    pm := 1 / 3, pd := 1 / 3, df := 1, N := 1, is_put := true, exponent := 2 }

/-- American binomial call state reachable from constructor inputs S0 = 100,
K = 90, T = 1, r = div = 1/20, N = 1, pu = 1, pd = 1/2, is_am = true:
u = 2, d = 1/2 and, since exp(0) = 1, qu = (1 - 1/2)/(3/2) = 1/3, qd = 2/3
and df = 1. -/
def c2BinAm : BinModel := mkBinP 100 90 2 (1 / 2) (1 / 3) (2 / 3) 1 1 false true

/-- Binomial put state with S0 = 0: every stock node is 0, so all delta
denominators vanish. -/
def c9BinZero : BinModel := mkBinP 0 10 2 (1 / 2) (1 / 3) (2 / 3) 1 1 true false

/-- Trinomial state with u = d = m = 1: adjacent stock children coincide. -/
def c9TriFlat : TriTreeParams :=
  { S0 := 5, K := 3, K2 := 3, u := 1, d := 1, m := 1, pu := 1 / 3,
    pm := 1 / 3, pd := 1 / 3, df := 1, N := 1, is_put := false, exponent := 2 }

/-- Binomial call state with distinct stock children, for the guarded delta
case. -/
def c9BinW : BinModel := mkBinP 100 90 2 (1 / 2) (1 / 3) (2 / 3) 1 1 false false

/-- Trinomial state with K2 = K, for the strangle-as-straddle case. -/
def c10TriP : TriTreeParams :=
  { S0 := 100, K := 90, K2 := 90, u := 2, d := 1 / 2, m := 1, pu := 1 / 3,
    pm := 1 / 3, pd := 1 / 3, df := 1, N := 1, is_put := false, exponent := 2 }

theorem isErr_error {α : Type} (e : PyErr) : isErr (Except.error e : Except PyErr α) = true := rfl

theorem isErr_ok {α : Type} (a : α) : isErr (Except.ok a : Except PyErr α) = false := rfl

/-- An in-the-money leg of the strangle payoff is a call or put payoff. -/
theorem ite_lt_then_sub (a b : ℚ) : (if b < a then a - b else 0) = max 0 (a - b) := by
  rcases le_or_lt a b with h | h
  · rw [if_neg (not_lt.2 h), max_eq_left (by linarith)]
  · rw [if_pos h, max_eq_right (by linarith)]

/-- Claim C5 (amended): after construction through the binomial volatility
path, the binomial direct-probability path, or the trinomial volatility
path, the sibling transition probabilities sum to exactly 1 (hence within
1e-9): qu + qd = 1 for the binomial and pu + pm + pd = 1 for the trinomial
volatility path. The trinomial direct-parameter path stores pu, pm, pd as
given, with no constraint (see the counterexample). -/
theorem c5_sibling_prob_sums :
    (∀ (mexp msqrt : ℚ → ℚ) (S0 K T r : ℚ) (N : ℤ) (sigma : Option ℚ) (dv : ℚ)
      (is_put : Bool) (K2 : Option ℚ) (exponent : ℕ) (pu pd : Option ℚ)
      (is_am : Bool) (payoff : ℚ) (mo : BinModel),
      binomialInit mexp msqrt S0 K T r N sigma dv is_put K2 exponent pu pd is_am payoff = .ok mo →
      mo.qu + mo.qd = 1) ∧
    (∀ (mexp msqrt : ℚ → ℚ) (S0 K T r : ℚ) (N : ℤ) (s dv : ℚ)
      (is_put : Bool) (K2 : Option ℚ) (pu pd pm u d m : Option ℚ)
      (is_am : Bool) (exponent : ℕ) (mo : TriModel),
      trinomialInit mexp msqrt S0 K T r N (some s) dv is_put K2 pu pd pm u d m is_am exponent = .ok mo →
      mo.pu + mo.pm + mo.pd = 1) := by
  constructor
  · intro mexp msqrt S0 K T r N sigma dv is_put K2 exponent pu pd is_am payoff mo h
    simp only [binomialInit] at h
    repeat' split at h
    all_goals cases h
    all_goals dsimp only
    all_goals ring
  · intro mexp msqrt S0 K T r N s dv is_put K2 pu pd pm u d m is_am exponent mo h
    simp only [trinomialInit] at h
    repeat' split at h
    all_goals cases h
    all_goals dsimp only
    all_goals ring

/-- Concrete instance of C5: both hypotheses hold at stand-in exp and sqrt
functions and the sums evaluate to 1. -/
theorem c5_sibling_prob_sums_witness :
    (binomialInit (fun _ => 2) (fun _ => 3) 100 100 1 0 1 (some 1) 0 false none 2
      none none false 1 = .ok c5BinModelW ∧
     c5BinModelW.qu + c5BinModelW.qd = 1) ∧
    (trinomialInit (fun x => 2 + x) (fun _ => 1) 100 100 1 0 1 (some 1) 0 false none
      none none none none none none false 2 = .ok c5TriModelW ∧
     c5TriModelW.pu + c5TriModelW.pm + c5TriModelW.pd = 1) := by
  have hb : binomialInit (fun _ => 2) (fun _ => 3) 100 100 1 0 1 (some 1) 0 false none 2
      none none false 1 = .ok c5BinModelW := by
    simp only [binomialInit, c5BinModelW]; norm_num
  have ht : trinomialInit (fun x => 2 + x) (fun _ => 1) 100 100 1 0 1 (some 1) 0 false none
      none none none none none none false 2 = .ok c5TriModelW := by
    simp only [trinomialInit, c5TriModelW]; norm_num
  exact ⟨⟨hb, c5_sibling_prob_sums.1 _ _ _ _ _ _ _ _ _ _ _ _ _ _ _ _ _ hb⟩,
         ⟨ht, c5_sibling_prob_sums.2 _ _ _ _ _ _ _ _ _ _ _ _ _ _ _ _ _ _ _ _ ht⟩⟩

/-- Counterexample to C5 as stated: the trinomial direct-parameter path
accepts pu = pm = pd = 1/2, whose sum 3/2 is farther than 1e-9 from 1. -/
theorem c5_counterexample :
    trinomialInit (fun x => x) (fun x => x) 100 100 1 (1 / 20) 1 none 0 false none
      (some (1 / 2)) (some (1 / 2)) (some (1 / 2)) (some 1) (some 1) (some 1) false 2 =
      .ok c5TriModelCx ∧
    c5TriModelCx.pu + c5TriModelCx.pm + c5TriModelCx.pd = 3 / 2 ∧
    (1 / 1000000000 : ℚ) < |(3 / 2 : ℚ) - 1| := by
  refine ⟨?_, by norm_num [c5TriModelCx], by rw [abs_of_nonneg (by norm_num)]; norm_num⟩
  simp only [trinomialInit, c5TriModelCx]; norm_num

/-- Claim C4: when sigma is absent and a direct calibration parameter is
absent (binomial: pu or pd; trinomial: any of u, d, m, pu, pd, pm), the
constructor raises (binomial: TypeError from 1 + None; trinomial: the
explicit ValueError) instead of recovering. -/
theorem c4_missing_calibration_error :
    (∀ (mexp msqrt : ℚ → ℚ) (S0 K T r : ℚ) (N : ℤ) (dv : ℚ) (is_put : Bool)
      (K2 : Option ℚ) (exponent : ℕ) (pu pd : Option ℚ) (is_am : Bool) (payoff : ℚ),
      pu = none ∨ pd = none →
      isErr (binomialInit mexp msqrt S0 K T r N none dv is_put K2 exponent pu pd is_am payoff) = true) ∧
    (∀ (mexp msqrt : ℚ → ℚ) (S0 K T r : ℚ) (N : ℤ) (dv : ℚ) (is_put : Bool)
      (K2 : Option ℚ) (pu pd pm u d m : Option ℚ) (is_am : Bool) (exponent : ℕ),
      u = none ∨ d = none ∨ m = none ∨ pu = none ∨ pd = none ∨ pm = none →
      isErr (trinomialInit mexp msqrt S0 K T r N none dv is_put K2 pu pd pm u d m is_am exponent) = true) := by
  constructor
  · intro mexp msqrt S0 K T r N dv is_put K2 exponent pu pd is_am payoff h
    rcases h with h | h
    · subst h; cases pd <;> simp [binomialInit, isErr]
    · subst h; cases pu <;> simp [binomialInit, isErr]
  · intro mexp msqrt S0 K T r N dv is_put K2 pu pd pm u d m is_am exponent h
    rcases eq_or_ne N 0 with hN | hN
    · subst hN; simp [trinomialInit, isErr]
    · cases u <;> cases d <;> cases m <;> cases pu <;> cases pd <;> cases pm <;>
        simp_all [trinomialInit, isErr]

/-- Concrete instance of C4: both constructors fail with sigma absent and a
direct parameter missing. -/
theorem c4_missing_calibration_error_witness :
    ((none : Option ℚ) = none ∨ (none : Option ℚ) = none) ∧
    isErr (binomialInit (fun x => x) (fun x => x) 100 100 1 (1 / 20) 2 none 0 false
      none 2 none none false 1) = true ∧
    isErr (trinomialInit (fun x => x) (fun x => x) 100 100 1 (1 / 20) 2 none 0 false
      none (some 1) (some 1) none (some 1) (some 1) (some 1) false 2) = true :=
  ⟨Or.inl rfl,
   c4_missing_calibration_error.1 _ _ _ _ _ _ _ _ _ _ _ _ _ _ _ (Or.inl rfl),
   c4_missing_calibration_error.2 _ _ _ _ _ _ _ _ _ _ _ _ _ _ _ _ _ _
     (Or.inr (Or.inr (Or.inr (Or.inr (Or.inr rfl)))))⟩

/-- Claim C7 (amended): for N < 1 the binomial constructor behaves exactly
as with N = 1 (the silent floor), and the trinomial constructor raises for
N = 0 (ZeroDivisionError at dt = T/N) and for N < 0 with a volatility and a
positive maturity (math domain error at sqrt(2*dt) with dt < 0); but with
the six direct parameters supplied the trinomial constructor succeeds for
every N < 0, so it does not raise for every N < 1 (see the
counterexample). -/
theorem c7_step_count_floor_amended :
    (∀ (mexp msqrt : ℚ → ℚ) (S0 K T r : ℚ) (N : ℤ) (sigma : Option ℚ) (dv : ℚ)
      (is_put : Bool) (K2 : Option ℚ) (exponent : ℕ) (pu pd : Option ℚ)
      (is_am : Bool) (payoff : ℚ), N ≤ 0 →
      binomialInit mexp msqrt S0 K T r N sigma dv is_put K2 exponent pu pd is_am payoff =
      binomialInit mexp msqrt S0 K T r 1 sigma dv is_put K2 exponent pu pd is_am payoff) ∧
    (∀ (mexp msqrt : ℚ → ℚ) (S0 K T r : ℚ) (sigma : Option ℚ) (dv : ℚ)
      (is_put : Bool) (K2 : Option ℚ) (pu pd pm u d m : Option ℚ)
      (is_am : Bool) (exponent : ℕ),
      isErr (trinomialInit mexp msqrt S0 K T r 0 sigma dv is_put K2 pu pd pm u d m is_am exponent) = true) ∧
    (∀ (mexp msqrt : ℚ → ℚ) (S0 K T r : ℚ) (s : ℚ) (N : ℤ) (dv : ℚ)
      (is_put : Bool) (K2 : Option ℚ) (pu pd pm u d m : Option ℚ)
      (is_am : Bool) (exponent : ℕ), N < 0 → 0 < T →
      isErr (trinomialInit mexp msqrt S0 K T r N (some s) dv is_put K2 pu pd pm u d m is_am exponent) = true) ∧
    (∀ (mexp msqrt : ℚ → ℚ) (S0 K T r : ℚ) (N : ℤ) (dv : ℚ)
      (is_put : Bool) (K2 : Option ℚ) (puv pdv pmv uv dvv mvv : ℚ)
      (is_am : Bool) (exponent : ℕ), N < 0 →
      isErr (trinomialInit mexp msqrt S0 K T r N none dv is_put K2 (some puv) (some pdv)
        (some pmv) (some uv) (some dvv) (some mvv) is_am exponent) = false) := by
  refine ⟨?_, ?_, ?_, ?_⟩
  · intro mexp msqrt S0 K T r N sigma dv is_put K2 exponent pu pd is_am payoff hN
    have h1 : max (1 : ℤ) N = 1 := max_eq_left (by omega)
    simp only [binomialInit, h1, max_self]
  · intro mexp msqrt S0 K T r sigma dv is_put K2 pu pd pm u d m is_am exponent
    simp [trinomialInit, isErr]
  · intro mexp msqrt S0 K T r s N dv is_put K2 pu pd pm u d m is_am exponent hN hT
    have hN0 : N ≠ 0 := by omega
    have hdt : 2 * (T / (N : ℚ)) < 0 := by
      have hNq : ((N : ℚ)) < 0 := by exact_mod_cast hN
      have := div_neg_of_pos_of_neg hT hNq
      linarith
    simp [trinomialInit, isErr, hN0, hdt]
  · intro mexp msqrt S0 K T r N dv is_put K2 puv pdv pmv uv dvv mvv is_am exponent hN
    have hN0 : N ≠ 0 := by omega
    simp [trinomialInit, isErr, hN0]

/-- Concrete instances of C7: the binomial floor at N = -3, the trinomial
failures at N = 0 and at N = -2 with volatility, and the trinomial success
at N = -2 with direct parameters. -/
theorem c7_step_count_floor_amended_witness :
    ((-3 : ℤ) ≤ 0 ∧
     binomialInit (fun x => x) (fun x => x) 100 100 1 (1 / 20) (-3) (some 1) 0 false
       none 2 none none false 1 =
     binomialInit (fun x => x) (fun x => x) 100 100 1 (1 / 20) 1 (some 1) 0 false
       none 2 none none false 1) ∧
    isErr (trinomialInit (fun x => x) (fun x => x) 100 100 1 (1 / 20) 0 (some 1) 0 false
      none none none none none none none false 2) = true ∧
    ((-2 : ℤ) < 0 ∧ (0 : ℚ) < 1 ∧
     isErr (trinomialInit (fun x => x) (fun x => x) 100 100 1 (1 / 20) (-2) (some 1) 0 false
       none none none none none none none false 2) = true) ∧
    ((-2 : ℤ) < 0 ∧
     isErr (trinomialInit (fun x => x) (fun x => x) 100 100 1 (1 / 20) (-2) none 0 false
       none (some (1 / 6)) (some (1 / 6)) (some (2 / 3)) (some 2) (some (1 / 2)) (some 1)
       false 2) = false) :=
  ⟨⟨by norm_num,
    c7_step_count_floor_amended.1 _ _ _ _ _ _ _ _ _ _ _ _ _ _ _ _ (by norm_num)⟩,
   c7_step_count_floor_amended.2.1 _ _ _ _ _ _ _ _ _ _ _ _ _ _ _ _ _ _,
   ⟨by norm_num, by norm_num,
    c7_step_count_floor_amended.2.2.1 _ _ _ _ _ _ _ _ _ _ _ _ _ _ _ _ _ _ _
      (by norm_num) (by norm_num)⟩,
   ⟨by norm_num,
    c7_step_count_floor_amended.2.2.2 _ _ _ _ _ _ _ _ _ _ _ _ _ _ _ _ _ _
      (by norm_num)⟩⟩

/-- Counterexample to C7 as stated: at N = -1 < 1 with the direct
parameters supplied, the trinomial constructor succeeds instead of raising
a configuration error. -/
theorem c7_counterexample :
    isErr (trinomialInit (fun x => x) (fun x => x) 100 100 1 (1 / 20) (-1) none 0 false
      none (some (1 / 6)) (some (1 / 6)) (some (2 / 3)) (some (3 / 2)) (some (2 / 3))
      (some 1) false 2) = false := by
  norm_num [trinomialInit, isErr]

/-- Claim C1 evaluated at the failing input N = 2 with well-formed
probabilities pu = pm = pd = 1/3: because format(i, '0{N}o') enumerates
octal rather than ternary strings, the trinomial end-state mapping contains
the state (1, 0, 0), whose move counts sum to 1 rather than N = 2, omits
(0, 2, 0), and its probabilities sum to 11/9 instead of 1. -/
theorem c1_trinomial_end_state_eval :
    probsSum (triEndStateProbs 2 (1 / 3) (1 / 3) (1 / 3)) = 11 / 9 ∧
    (11 / 9 : ℚ) ≠ 1 ∧
    (1, 0, 0) ∈ triEndStates 2 ∧
    (0, 2, 0) ∉ triEndStates 2 := by
  refine ⟨?_, by norm_num, by decide, by decide⟩
  have h : triEndStates 2 = [(2, 0, 0), (1, 1, 0), (1, 0, 1), (1, 0, 0)] := by decide
  have h2 : Nat.factorial 2 = 2 := rfl
  have h1 : Nat.factorial 1 = 1 := rfl
  have h0 : Nat.factorial 0 = 1 := rfl
  simp [probsSum, triEndStateProbs, h, multinomProb, h2, h1, h0]
  norm_num

/-- Claim C6 evaluated at the failing input N = 2, pu = pm = pd = 1/3: the
path-enumeration mapping and the direct multinomial mapping disagree — the
direct mapping assigns probability 1/9 to (0, 2, 0) while the enumeration
mapping has no such key, and the enumeration mapping has the key (1, 0, 0)
which is not a valid move-count triple for N = 2. -/
theorem c6_path_enumeration_vs_direct_multinomial :
    lookupState (triEndStateProbs 2 (1 / 3) (1 / 3) (1 / 3)) (0, 2, 0) = none ∧
    lookupState (triEndStateProbsDirect 2 (1 / 3) (1 / 3) (1 / 3)) (0, 2, 0) = some (1 / 9) ∧
    (1, 0, 0) ∈ triEndStates 2 ∧
    (1, 0, 0) ∉ triStatesDirect 2 := by
  refine ⟨by decide, ?_, by decide, by decide⟩
  have h : lookupState (triEndStateProbsDirect 2 (1 / 3) (1 / 3) (1 / 3)) (0, 2, 0)
      = some (multinomProb (1 / 3) (1 / 3) (1 / 3) 2 (0, 2, 0)) := rfl
  rw [h]
  have h2 : Nat.factorial 2 = 2 := rfl
  have h0 : Nat.factorial 0 = 1 := rfl
  simp [multinomProb, h2, h0]
  norm_num

/-- Claim C3 (amended): every digital payoff entry is the payoff amount or
exactly 0, and the boundary conventions are: binomial put in the money iff
S ≤ K (non-strict), binomial call iff K < S (strict), both paying the
configured amount; trinomial put in the money iff S < K (strict), trinomial
call iff K < S, both paying the literal 1 (the trinomial has no
configurable payoff amount). -/
theorem c3_digital_payoff_amended :
    (∀ (p : BinModel) (j : ℕ),
      (binPayoff p .digital j = p.payoff ∨ binPayoff p .digital j = 0) ∧
      binPayoff p .digital j =
        (if (if p.is_put then binStock p p.N j ≤ p.K else p.K < binStock p p.N j)
         then p.payoff else 0)) ∧
    (∀ (q : TriTreeParams) (j : ℕ),
      (triPayoff q .digital j = 1 ∨ triPayoff q .digital j = 0) ∧
      triPayoff q .digital j =
        (if (if q.is_put then triStock q q.N j < q.K else q.K < triStock q q.N j)
         then (1 : ℚ) else 0)) := by
  constructor
  · intro p j
    refine ⟨?_, ?_⟩
    · cases hp : p.is_put <;> simp only [binPayoff, hp] <;>
        split_ifs <;> simp
    · cases hp : p.is_put <;> simp [binPayoff, hp]
  · intro q j
    refine ⟨?_, ?_⟩
    · cases hq : q.is_put <;> simp only [triPayoff, hq] <;>
        split_ifs <;> simp
    · cases hq : q.is_put <;> simp [triPayoff, hq]

/-- Counterexample to C3 as stated: the trinomial digital put at the
at-the-money terminal node (S = K = 100, N = 1, middle node) pays 0, even
though S ≤ K, so the non-strict put convention claimed for both models does
not hold in the trinomial model. -/
theorem c3_counterexample :
    c3TriPut.is_put = true ∧
    triStock c3TriPut c3TriPut.N 1 ≤ c3TriPut.K ∧
    triPayoff c3TriPut .digital 1 = 0 ∧
    (0 : ℚ) ≠ 1 :=
  ⟨rfl, by decide, by decide, by norm_num⟩

theorem binVal_zero (p : BinModel) (pay : ℕ → ℚ) (j : ℕ) : binVal p pay 0 j = pay j := rfl

theorem binVal_succ (p : BinModel) (pay : ℕ → ℚ) (k j : ℕ) :
    binVal p pay (k + 1) j =
      (if p.is_am then
        max ((p.qu * binVal p pay k j + p.qd * binVal p pay k (j + 1)) * p.df)
          (if p.is_put then max (binVal p pay k (j + 1)) (p.K - binStock p (p.N - k) (j + 1))
           else max (binVal p pay k j) (binStock p (p.N - k) j - p.K))
      else (p.qu * binVal p pay k j + p.qd * binVal p pay k (j + 1)) * p.df) := rfl

/-- With the same tree fields and the same terminal payoff vector, the
American-flag backward induction dominates the European one node by node,
because the American node value is a maximum over a set containing the
European continuation value. -/
theorem binVal_le_am (S0 K u d qu qd df : ℚ) (N : ℕ) (pay : ℕ → ℚ) (ip : Bool)
    (hqu : 0 ≤ qu) (hqd : 0 ≤ qd) (hdf : 0 ≤ df) :
    ∀ (k j : ℕ), binVal (mkBinP S0 K u d qu qd df N ip false) pay k j ≤
      binVal (mkBinP S0 K u d qu qd df N ip true) pay k j := by
  intro k
  induction k with
  | zero => intro j; simp [binVal_zero]
  | succ k ih =>
    intro j
    rw [binVal_succ, binVal_succ]
    simp only [mkBinP]
    refine le_trans ?_ (le_max_left _ _)
    have h1 := ih j
    have h2 := ih (j + 1)
    have hsum := add_le_add (mul_le_mul_of_nonneg_left h1 hqu) (mul_le_mul_of_nonneg_left h2 hqd)
    exact mul_le_mul_of_nonneg_right hsum hdf

/-- Claim C8: for identical tree parameters with is_put = true, non-negative
qu, qd and df, the American put price (is_am = true, option type american)
is at least the European put price (is_am = false, option type european);
the two option types share the same terminal payoff vector. -/
theorem c8_american_put_ge_european_put (S0 K u d qu qd df : ℚ) (N : ℕ)
    (hqu : 0 ≤ qu) (hqd : 0 ≤ qd) (hdf : 0 ≤ df) :
    binPrice (mkBinP S0 K u d qu qd df N true false) .european ≤
    binPrice (mkBinP S0 K u d qu qd df N true true) .american := by
  have hpay : binPayoff (mkBinP S0 K u d qu qd df N true false) .european =
      binPayoff (mkBinP S0 K u d qu qd df N true true) .american := by
    funext j
    simp [binPayoff, binStock, mkBinP]
  unfold binPrice
  rw [hpay]
  exact binVal_le_am S0 K u d qu qd df N _ true hqu hqd hdf N 0

/-- Concrete instance of C8 at an in-the-money put (S0 = 100, K = 110). -/
theorem c8_american_put_ge_european_put_witness :
    (0 : ℚ) ≤ 1 / 3 ∧ (0 : ℚ) ≤ 2 / 3 ∧ (0 : ℚ) ≤ 1 ∧
    binPrice (mkBinP 100 110 2 (1 / 2) (1 / 3) (2 / 3) 1 1 true false) .european ≤
    binPrice (mkBinP 100 110 2 (1 / 2) (1 / 3) (2 / 3) 1 1 true true) .american :=
  ⟨by norm_num, by norm_num, by norm_num,
   c8_american_put_ge_european_put 100 110 2 (1 / 2) (1 / 3) (2 / 3) 1 1
     (by norm_num) (by norm_num) (by norm_num)⟩

/-- Claim C2 evaluated at the failing input (American call, S0 = 100,
K = 90, u = 2, d = 1/2, qu = 1/3, qd = 2/3, df = 1, N = 1): the code
values the root at 110, because check_early_exercise is applied with the
child level i+1 and compares against the child option value and the child
stock price, while the rule stated by the claim — max of the discounted
continuation value and max(0, S(i,j) - K) at the same node — gives 110/3. -/
theorem c2_early_exercise_eval :
    binVal c2BinAm (binPayoff c2BinAm .american) 1 0 = 110 ∧
    max ((c2BinAm.qu * binPayoff c2BinAm .american 0 +
          c2BinAm.qd * binPayoff c2BinAm .american 1) * c2BinAm.df)
        (max 0 (binStock c2BinAm 0 0 - c2BinAm.K)) = 110 / 3 ∧
    (110 : ℚ) ≠ 110 / 3 := by
  have hp0 : binPayoff c2BinAm .american 0 = 110 := by
    norm_num [binPayoff, binStock, c2BinAm, mkBinP]
  have hp1 : binPayoff c2BinAm .american 1 = 0 := by
    norm_num [binPayoff, binStock, c2BinAm, mkBinP]
  refine ⟨?_, ?_, by norm_num⟩
  · show binVal c2BinAm (binPayoff c2BinAm .american) (0 + 1) 0 = 110
    rw [binVal_succ]
    norm_num [binVal_zero, binPayoff, binStock, c2BinAm, mkBinP, max_def]
  · rw [hp0, hp1]
    norm_num [c2BinAm, mkBinP, binStock]

/-- Claim C9 (amended): in both models the interior-node delta is the
difference quotient of the adjacent child values over the adjacent child
stock prices; the trinomial guards the zero denominator and returns 0,
while the binomial divides with no guard, so a vanishing stock denominator
yields the non-finite float modelled by none (see the counterexample). -/
theorem c9_delta_amended :
    (∀ (q : TriTreeParams) (pay : ℕ → ℚ) (i j : ℕ),
      (triStock q (i + 1) (j + 1) = triStock q (i + 1) (j - 1) → triDelta q pay i j = 0) ∧
      (triStock q (i + 1) (j + 1) ≠ triStock q (i + 1) (j - 1) →
        triDelta q pay i j =
          (triVal q pay (q.N - i - 1) (j + 1) - triVal q pay (q.N - i - 1) (j - 1)) /
          (triStock q (i + 1) (j + 1) - triStock q (i + 1) (j - 1)))) ∧
    (∀ (p : BinModel) (pay : ℕ → ℚ) (i j : ℕ),
      (binStock p (i + 1) j ≠ binStock p (i + 1) (j + 1) →
        binDelta p pay i j =
          some ((binVal p pay (p.N - i - 1) j - binVal p pay (p.N - i - 1) (j + 1)) /
                (binStock p (i + 1) j - binStock p (i + 1) (j + 1)))) ∧
      (binStock p (i + 1) j = binStock p (i + 1) (j + 1) → binDelta p pay i j = none)) := by
  constructor
  · intro q pay i j
    constructor
    · intro h; simp [triDelta, h]
    · intro h; simp [triDelta, h]
  · intro p pay i j
    constructor
    · intro h; simp [binDelta, sub_eq_zero, h]
    · intro h; simp [binDelta, sub_eq_zero, h]

/-- Concrete instances of C9: the trinomial delta is 0 at a degenerate node
(u = d = m = 1), and the binomial delta is the difference quotient at a
non-degenerate node. -/
theorem c9_delta_amended_witness :
    (triStock c9TriFlat (0 + 1) (1 + 1) = triStock c9TriFlat (0 + 1) (1 - 1) ∧
     triDelta c9TriFlat (fun _ => 0) 0 1 = 0) ∧
    (binStock c9BinW (0 + 1) 0 ≠ binStock c9BinW (0 + 1) (0 + 1) ∧
     binDelta c9BinW (fun _ => 0) 0 0 =
       some ((binVal c9BinW (fun _ => 0) (c9BinW.N - 0 - 1) 0 -
              binVal c9BinW (fun _ => 0) (c9BinW.N - 0 - 1) (0 + 1)) /
             (binStock c9BinW (0 + 1) 0 - binStock c9BinW (0 + 1) (0 + 1)))) := by
  have h1 : triStock c9TriFlat (0 + 1) (1 + 1) = triStock c9TriFlat (0 + 1) (1 - 1) := rfl
  have h2 : binStock c9BinW (0 + 1) 0 ≠ binStock c9BinW (0 + 1) (0 + 1) := by
    norm_num [binStock, c9BinW, mkBinP]
  exact ⟨⟨h1, (c9_delta_amended.1 c9TriFlat (fun _ => 0) 0 1).1 h1⟩,
         ⟨h2, (c9_delta_amended.2 c9BinW (fun _ => 0) 0 0).1 h2⟩⟩

/-- Counterexample to C9 as stated: in the binomial model with S0 = 0 the
two child stock prices coincide, and the unguarded division produces the
non-finite float (none), not the value 0 the claim prescribes. -/
theorem c9_counterexample :
    binStock c9BinZero 1 0 = binStock c9BinZero 1 1 ∧
    binDelta c9BinZero (binPayoff c9BinZero .european) 0 0 = none ∧
    (none : Option ℚ) ≠ some 0 := by
  refine ⟨by norm_num [binStock, c9BinZero, mkBinP], ?_, by simp⟩
  norm_num [binDelta, binStock, c9BinZero, mkBinP]

/-- Claim C10: when the secondary strike argument is omitted (None), both
constructors store K2 = K, and a strangle payoff with K2 = K is the
straddle payoff max(0, S - K) + max(0, K - S) at every terminal node, in
both models. -/
theorem c10_strangle_k2_default :
    (∀ (mexp msqrt : ℚ → ℚ) (S0 K T r : ℚ) (N : ℤ) (sigma : Option ℚ) (dv : ℚ)
      (is_put : Bool) (exponent : ℕ) (pu pd : Option ℚ) (is_am : Bool) (payoff : ℚ),
      (binomialInit mexp msqrt S0 K T r N sigma dv is_put none exponent pu pd is_am payoff).map
          (fun mo => mo.K2) =
      (binomialInit mexp msqrt S0 K T r N sigma dv is_put none exponent pu pd is_am payoff).map
          (fun mo => mo.K)) ∧
    (∀ (mexp msqrt : ℚ → ℚ) (S0 K T r : ℚ) (N : ℤ) (sigma : Option ℚ) (dv : ℚ)
      (is_put : Bool) (pu pd pm u d m : Option ℚ) (is_am : Bool) (exponent : ℕ),
      (trinomialInit mexp msqrt S0 K T r N sigma dv is_put none pu pd pm u d m is_am exponent).map
          (fun mo => mo.K2) =
      (trinomialInit mexp msqrt S0 K T r N sigma dv is_put none pu pd pm u d m is_am exponent).map
          (fun mo => mo.K)) ∧
    (∀ (p : BinModel) (j : ℕ), p.K2 = p.K →
      binPayoff p .strangle j =
        max 0 (binStock p p.N j - p.K) + max 0 (p.K - binStock p p.N j)) ∧
    (∀ (q : TriTreeParams) (j : ℕ), q.K2 = q.K →
      triPayoff q .strangle j =
        max 0 (triStock q q.N j - q.K) + max 0 (q.K - triStock q q.N j)) := by
  refine ⟨?_, ?_, ?_, ?_⟩
  · intro mexp msqrt S0 K T r N sigma dv is_put exponent pu pd is_am payoff
    simp only [binomialInit]
    repeat' split
    all_goals simp [Except.map]
  · intro mexp msqrt S0 K T r N sigma dv is_put pu pd pm u d m is_am exponent
    simp only [trinomialInit]
    repeat' split
    all_goals simp [Except.map]
  · intro p j h
    simp only [binPayoff]
    rw [h, ite_lt_then_sub, ite_lt_then_sub]
  · intro q j h
    simp only [triPayoff]
    rw [h, ite_lt_then_sub, ite_lt_then_sub]

/-- Concrete instance of C10: with K2 equal to K, the strangle payoff is
the straddle payoff in both models. -/
theorem c10_strangle_k2_default_witness :
    c9BinW.K2 = c9BinW.K ∧
    binPayoff c9BinW .strangle 0 =
      max 0 (binStock c9BinW c9BinW.N 0 - c9BinW.K) +
      max 0 (c9BinW.K - binStock c9BinW c9BinW.N 0) ∧
    c10TriP.K2 = c10TriP.K ∧
    triPayoff c10TriP .strangle 0 =
      max 0 (triStock c10TriP c10TriP.N 0 - c10TriP.K) +
      max 0 (c10TriP.K - triStock c10TriP c10TriP.N 0) :=
  ⟨rfl, c10_strangle_k2_default.2.2.1 c9BinW 0 rfl, rfl,
   c10_strangle_k2_default.2.2.2 c10TriP 0 rfl⟩
